import Mathlib

/-!
Verification of the kernelcache kext-extraction core
(`pkg/kernelcache/kext.go` of the `ipsw` repository).

The Go code is shallowly embedded: 64-bit machine integers are `Nat`
(with explicit `% 2 ^ 64` where overflow matters), byte buffers are
`List Nat`, fallible operations return `Option`/`Except`, and the
external Mach-O accessor (`go-macho`), the chained-fixup rebase
primitive (`fixupchains`) and the property-list decoder (`go-plist`)
are oracle parameters, exactly the narrow interfaces the code consumes.
-/

namespace Kext

/-- `const tagPtrMask = 0xffff000000000000` from `kext.go`. -/
def tagPtrMask : Nat := 0xffff000000000000

/-- `func getTag(ptr uint64) uint64 { return ptr >> 48 }`. -/
def getTag (ptr : Nat) : Nat := ptr >>> 48

/-- `func unTag(ptr uint64) uint64 { return (ptr & ((1 << 48) - 1)) | (0xffff << 48) }`. -/
def unTag (ptr : Nat) : Nat := (ptr &&& ((1 <<< 48) - 1)) ||| (0xffff <<< 48)

theorem tagPtrMask_eq_shift : tagPtrMask = 0xffff <<< 48 := by
  norm_num [tagPtrMask, Nat.shiftLeft_eq]

/-- CLAIM C8: for a 64-bit value `p` whose top 16 bits are zero,
`unTag (p ||| tagPtrMask)` (the spec's `untag(withTagMask(p))`) has its
top 16 bits all-ones and its low 48 bits equal to `p`'s low 48 bits. -/
theorem untag_withTagMask_C8 (p : Nat) (hp : p < 2 ^ 64) (h : p >>> 48 = 0) :
    unTag (p ||| tagPtrMask) >>> 48 = 0xffff ∧
    unTag (p ||| tagPtrMask) % 2 ^ 48 = p % 2 ^ 48 := by
  constructor
  · apply Nat.eq_of_testBit_eq
    intro i
    simp only [unTag, tagPtrMask_eq_shift, Nat.testBit_shiftRight, Nat.testBit_or,
      Nat.testBit_and, Nat.testBit_shiftLeft, Nat.one_shiftLeft,
      Nat.testBit_two_pow_sub_one]
    have h1 : ¬ (48 + i < 48) := by omega
    have h2 : (48 : Nat) ≤ 48 + i := by omega
    have h3 : 48 + i - 48 = i := by omega
    simp [h1, h2, h3]
  · apply Nat.eq_of_testBit_eq
    intro i
    simp only [unTag, tagPtrMask_eq_shift, Nat.testBit_mod_two_pow, Nat.testBit_or,
      Nat.testBit_and, Nat.testBit_shiftLeft, Nat.one_shiftLeft,
      Nat.testBit_two_pow_sub_one]
    by_cases hi : i < 48
    · have h4 : ¬ (48 : Nat) ≤ i := by omega
      simp [hi, h4]
    · simp [hi]

/-- Witness for C8 at `p = 0x12340000`. -/
theorem untag_withTagMask_C8_witness :
    unTag (0x12340000 ||| tagPtrMask) >>> 48 = 0xffff ∧
    unTag (0x12340000 ||| tagPtrMask) % 2 ^ 48 = 0x12340000 % 2 ^ 48 :=
  untag_withTagMask_C8 0x12340000 (by norm_num) (by decide)

/-! ## The external Mach-O accessor, as the narrow interface the code consumes

`kext.go` uses `go-macho` only through: `Section(seg, name)` (may be absent),
`Section.Data()` (may fail), `Section.Size`, `GetOffset(vaddr)` (may fail),
`ReadAt(buf, off)` (may fail), `GetCString(vaddr)` (may fail), and
`GetBaseAddress()`. An opened image is modelled as that record of oracles. -/

/-- A Mach-O section: its header `Size` field and the outcome of `Data()`. -/
structure MachoSection where
  size : Nat
  data : Option (List Nat)

/-- An opened Mach-O image: the oracle record for the accessor interface. -/
structure MachoFile where
  Section : String → String → Option MachoSection
  GetCString : Nat → Option String
  GetOffset : Nat → Option Nat
  ReadAt : Nat → Nat → Option (List Nat)
  GetBaseAddress : Nat

/-- Failure cases of the kext-extraction operations (spec §7 taxonomy, plus
the propagated accessor failures `DataReadFailed`/`BinaryDecodeFailed`). -/
inductive KCError where
  | SectionMissing
  | DataReadFailed
  | BinaryDecodeFailed
  | AddressNotMapped
  | RecordTruncated
  | PlistDecodeFailed
  | IndexOutOfRange
deriving DecidableEq

/-! ## Packed 8-byte little-endian word arrays

All three readers in `kext.go` decode a section with the same idiom:
`ptrs := make([]uint64, sec.Size/8)` followed by
`binary.Read(bytes.NewReader(data), binary.LittleEndian, &ptrs)`:
`size / 8` consecutive 8-byte little-endian words from the front of the
buffer, failing only when the buffer runs out. -/

/-- Little-endian numeric value of a byte list (first byte least significant). -/
def leValue (bs : List Nat) : Nat := bs.foldr (fun b acc => b + 256 * acc) 0

/-- `n` bytes at offset `off`, or `none` when the buffer is too short
(an `io.ReadFull` short-read failure inside `binary.Read`). -/
def readBytes (data : List Nat) (off n : Nat) : Option (List Nat) :=
  if off + n ≤ data.length then some ((data.drop off).take n) else none

/-- Read `count` consecutive 8-byte little-endian words starting at `off`. -/
def readWords (data : List Nat) (off : Nat) : Nat → Option (List Nat)
  | 0 => some []
  | n + 1 =>
    match readBytes data off 8 with
    | none => none
    | some bs =>
      match readWords data (off + 8) n with
      | none => none
      | some ws => some (leValue bs :: ws)

/-- `make([]uint64, size/8)` + `binary.Read`: decode `size / 8` words. -/
def parseWords (size : Nat) (data : List Nat) : Option (List Nat) :=
  readWords data 0 (size / 8)

theorem readWords_length (data : List Nat) (n : Nat) :
    ∀ off : Nat, off + 8 * n ≤ data.length →
      ∃ ws, readWords data off n = some ws ∧ ws.length = n := by
  induction n with
  | zero => exact fun off _ => ⟨[], rfl, rfl⟩
  | succ k ih =>
    intro off h
    have h8 : off + 8 ≤ data.length := by omega
    have hb : readBytes data off 8 = some ((data.drop off).take 8) := by
      simp [readBytes, h8]
    obtain ⟨ws, hws, hlen⟩ := ih (off + 8) (by omega)
    exact ⟨leValue ((data.drop off).take 8) :: ws,
      by simp [readWords, hb, hws], by simp [hlen]⟩

theorem readWords_take (data : List Nat) (n : Nat) :
    ∀ off m : Nat, off + 8 * n ≤ m →
      readWords data off n = readWords (data.take m) off n := by
  induction n with
  | zero => intro off m _; rfl
  | succ k ih =>
    intro off m h
    have hbytes : readBytes (data.take m) off 8 = readBytes data off 8 := by
      by_cases hlen : off + 8 ≤ data.length
      · have h1 : off + 8 ≤ (data.take m).length := by
          rw [List.length_take]; omega
        rw [readBytes, readBytes, if_pos hlen, if_pos h1, List.drop_take,
          List.take_take]
        have : min 8 (m - off) = 8 := by omega
        rw [this]
      · have h1 : ¬ off + 8 ≤ (data.take m).length := by
          rw [List.length_take]; omega
        simp [readBytes, hlen, h1]
    rw [readWords, readWords, hbytes, ih (off + 8) m (by omega)]

/-- CLAIM C10: each packed pointer array (the `__kmod_start` addresses, the
`__kmod_info` tagged pointers, and the `__DATA_CONST.__const` scan) decodes
exactly `size / 8` 8-byte little-endian words; a trailing partial word
(when the section size is not a multiple of 8) is silently ignored rather
than causing an error — the decode only ever looks at the first
`8 * (size / 8)` bytes. -/
theorem packed_word_decode_C10 (size : Nat) (data : List Nat)
    (h : data.length = size) :
    (∃ ws, parseWords size data = some ws ∧ ws.length = size / 8) ∧
    parseWords size data = parseWords size (data.take (8 * (size / 8))) := by
  constructor
  · exact readWords_length data (size / 8) 0 (by omega)
  · exact readWords_take data (size / 8) 0 (8 * (size / 8)) (by omega)

/-- Witness for C10 at a 9-byte section: one word decoded, ninth byte ignored. -/
theorem packed_word_decode_C10_witness :
    ((∃ ws, parseWords 9 [1, 2, 3, 4, 5, 6, 7, 8, 9] = some ws ∧
        ws.length = 9 / 8) ∧
     parseWords 9 [1, 2, 3, 4, 5, 6, 7, 8, 9] =
       parseWords 9 ([1, 2, 3, 4, 5, 6, 7, 8, 9].take (8 * (9 / 8)))) :=
  packed_word_decode_C10 9 [1, 2, 3, 4, 5, 6, 7, 8, 9] (by decide)

/-! ## KextList: the kext-listing operation -/

/-- `getKextStartVMAddrs` from `kext.go`: locate `__PRELINK_INFO.__kmod_start`,
read its data, decode the packed word array. -/
def getKextStartVMAddrs (m : MachoFile) : Except KCError (List Nat) :=
  match m.Section "__PRELINK_INFO" "__kmod_start" with
  | some kmodStart =>
    match kmodStart.data with
    | none => .error .DataReadFailed
    | some data =>
      match parseWords kmodStart.size data with
      | none => .error .BinaryDecodeFailed
      | some ptrs => .ok ptrs
  | none => .error .SectionMissing

/-- The `CFBundle` bundle descriptor of `kext.go`, restricted to the fields
the kext-listing operation reads (`ID`, `Name`, `Version`,
`OSKernelResource`, `ModuleIndex`); the remaining plist payload fields
(SDK/platform/build provenance strings, IOKit personalities, …) are decoded
but never read by any operation modelled here, so they are omitted. -/
structure CFBundle where
  ID : String := ""
  Name : String := ""
  Version : String := ""
  OSKernelResource : Bool := false
  ModuleIndex : Nat := 0
deriving DecidableEq

/-- One line printed by `KextList`'s loop:
`fmt.Printf("%#x: %s (%s)\n", loadAddress, bundle.ID, bundle.Version)`. -/
structure KextCatalogEntry where
  LoadAddress : Nat
  BundleID : String
  Version : String
deriving DecidableEq

/-- `bytes.Trim(data, "\x00")`: strip leading and trailing NUL bytes. -/
def trimNul (data : List Nat) : List Nat :=
  ((data.dropWhile (· == 0)).reverse.dropWhile (· == 0)).reverse

/-- The `for _, bundle := range prelink.PrelinkInfoDictionary` loop of
`KextList`. The printed lines are accumulated as catalog entries; reaching
`kextStartAdddrs[bundle.ModuleIndex]` with an out-of-bounds index aborts
the whole listing (a Go index-out-of-range runtime panic), modelled as
`KCError.IndexOutOfRange` with the loop stopped at that bundle. -/
def buildCatalog (kextStartAddrs : List Nat) :
    List CFBundle → List KextCatalogEntry × Option KCError
  | [] => ([], none)
  | bundle :: rest =>
    if !bundle.OSKernelResource then
      match kextStartAddrs[bundle.ModuleIndex]? with
      | some addr =>
        let r := buildCatalog kextStartAddrs rest
        (⟨addr ||| tagPtrMask, bundle.ID, bundle.Version⟩ :: r.1, r.2)
      | none => ([], some .IndexOutOfRange)
    else
      let r := buildCatalog kextStartAddrs rest
      (⟨0, bundle.ID, bundle.Version⟩ :: r.1, r.2)

/-- `KextList` from `kext.go` (the image is already opened; `pd` is the
external `go-plist` decoder for `PrelinkInfo.PrelinkInfoDictionary`,
`none` meaning `Decode` failed). Result: the catalog entries printed,
paired with the error the call ends in (`none` = returns `nil`). -/
def KextList (pd : List Nat → Option (List CFBundle)) (m : MachoFile) :
    List KextCatalogEntry × Option KCError :=
  match getKextStartVMAddrs m with
  | .error e => ([], some e)
  | .ok kextStartAddrs =>
    match m.Section "__PRELINK_INFO" "__info" with
    | none => ([], none)
    | some infoSec =>
      match infoSec.data with
      | none => ([], some .DataReadFailed)
      | some data =>
        match pd (trimNul data) with
        | none => ([], some .PlistDecodeFailed)
        | some prelink => buildCatalog kextStartAddrs prelink

/-- CLAIM C3: a bundle with `OSKernelResource = false` and `ModuleIndex` in
bounds contributes the catalog entry
`{LoadAddress := kextStartAddrs[ModuleIndex] ||| 0xFFFF000000000000,
BundleID := ID, Version := Version}`, ahead of the rest of the catalog; in
particular Scenario A: `kmod_start = [0x0000000012340000]` and one such
bundle at index 0 give the single entry with `LoadAddress =
0xFFFF000012340000`. -/
theorem catalog_entry_inbounds_C3 :
    (∀ (kextStartAddrs : List Nat) (b : CFBundle) (rest : List CFBundle)
        (h : b.ModuleIndex < kextStartAddrs.length),
        b.OSKernelResource = false →
        buildCatalog kextStartAddrs (b :: rest) =
          (⟨kextStartAddrs.get ⟨b.ModuleIndex, h⟩ ||| 0xFFFF000000000000,
              b.ID, b.Version⟩ :: (buildCatalog kextStartAddrs rest).1,
            (buildCatalog kextStartAddrs rest).2)) ∧
    buildCatalog [0x0000000012340000]
        [{ ID := "com.example.test", Version := "1.0",
           OSKernelResource := false, ModuleIndex := 0 }] =
      ([⟨0xFFFF000012340000, "com.example.test", "1.0"⟩], none) := by
  constructor
  · intro kextStartAddrs b rest h hk
    have hidx : kextStartAddrs[b.ModuleIndex]? =
        some (kextStartAddrs.get ⟨b.ModuleIndex, h⟩) := by
      simp [List.getElem?_eq_getElem h]
    simp [buildCatalog, hk, hidx, tagPtrMask]
  · rfl

/-- Witness for C3: Scenario A through the general statement. -/
theorem catalog_entry_inbounds_C3_witness :
    buildCatalog [0x0000000012340000]
        ({ ID := "com.example.test", Version := "1.0",
           OSKernelResource := false, ModuleIndex := 0 } :: []) =
      (⟨([0x0000000012340000] : List Nat).get ⟨0, by decide⟩ |||
            0xFFFF000000000000, "com.example.test", "1.0"⟩ ::
          (buildCatalog [0x0000000012340000] []).1,
        (buildCatalog [0x0000000012340000] []).2) :=
  catalog_entry_inbounds_C3.1 [0x0000000012340000] _ [] (by decide) rfl

/-- CLAIM C4: a bundle with `OSKernelResource = true` contributes the entry
`{LoadAddress := 0, BundleID := ID, Version := Version}` regardless of
`ModuleIndex` — no bounds check is made against the load-address array and
the remaining error is whatever the rest of the loop produces, never
`IndexOutOfRange` for this bundle; in particular Scenario B:
`{OSKernelResource := true, ModuleIndex := 5}` against a start array of
length 1 gives the entry with `LoadAddress = 0` and no error. -/
theorem catalog_entry_kernel_resource_C4 :
    (∀ (kextStartAddrs : List Nat) (b : CFBundle) (rest : List CFBundle),
        b.OSKernelResource = true →
        buildCatalog kextStartAddrs (b :: rest) =
          (⟨0, b.ID, b.Version⟩ :: (buildCatalog kextStartAddrs rest).1,
            (buildCatalog kextStartAddrs rest).2)) ∧
    buildCatalog [0x1000] [{ OSKernelResource := true, ModuleIndex := 5 }] =
      ([⟨0, "", ""⟩], none) := by
  constructor
  · intro kextStartAddrs b rest hk
    simp [buildCatalog, hk]
  · rfl

/-- Witness for C4: Scenario B through the general statement. -/
theorem catalog_entry_kernel_resource_C4_witness :
    buildCatalog [0x1000]
        ({ OSKernelResource := true, ModuleIndex := 5 } :: []) =
      (⟨0, "", ""⟩ :: (buildCatalog [0x1000] []).1,
        (buildCatalog [0x1000] []).2) :=
  catalog_entry_kernel_resource_C4.1 [0x1000] _ [] rfl

/-- CLAIM C7: when section `__PRELINK_INFO.__kmod_start` is absent, the
address reader fails with `SectionMissing` and `KextList` returns that
error having printed no catalog entry (Scenario C). -/
theorem kmod_start_missing_C7 :
    ∀ (pd : List Nat → Option (List CFBundle)) (m : MachoFile),
      m.Section "__PRELINK_INFO" "__kmod_start" = none →
      getKextStartVMAddrs m = .error .SectionMissing ∧
      KextList pd m = ([], some .SectionMissing) := by
  intro pd m h
  have h1 : getKextStartVMAddrs m = .error .SectionMissing := by
    simp [getKextStartVMAddrs, h]
  exact ⟨h1, by simp [KextList, h1]⟩

/-- An image with no sections at all. -/
def emptyImage : MachoFile :=
  ⟨fun _ _ => none, fun _ => none, fun _ => none, fun _ _ => none, 0⟩

/-- Witness for C7 on an image with no sections. -/
theorem kmod_start_missing_C7_witness :
    getKextStartVMAddrs emptyImage = .error .SectionMissing ∧
    KextList (fun _ => none) emptyImage = ([], some .SectionMissing) :=
  kmod_start_missing_C7 (fun _ => none) emptyImage rfl

theorem buildCatalog_oob (kextStartAddrs : List Nat) :
    ∀ (bundles : List CFBundle) (b : CFBundle), b ∈ bundles →
      b.OSKernelResource = false → kextStartAddrs.length ≤ b.ModuleIndex →
      (buildCatalog kextStartAddrs bundles).2 = some .IndexOutOfRange := by
  intro bundles
  induction bundles with
  | nil => intro b hb _ _; cases hb
  | cons a rest ih =>
    intro b hb hk hlen
    rcases List.mem_cons.mp hb with rfl | hmem
    · have hidx : kextStartAddrs[b.ModuleIndex]? = none :=
        List.getElem?_eq_none hlen
      simp [buildCatalog, hk, hidx]
    · by_cases ha : a.OSKernelResource
      · simp [buildCatalog, ha, ih b hmem hk hlen]
      · cases haddr : kextStartAddrs[a.ModuleIndex]? with
        | some v =>
          simp [buildCatalog, ha, haddr, ih b hmem hk hlen]
        | none => simp [buildCatalog, ha, haddr]

/-- CLAIM C1: if the decoded bundle directory contains a bundle with
`OSKernelResource = false` and `ModuleIndex` out of bounds of
`kextStartAddrs`, the whole listing aborts with `IndexOutOfRange`
(the Go runtime index-out-of-range panic at
`kextStartAdddrs[bundle.ModuleIndex]`): `KextList` does not complete
successfully and no catalog is returned. -/
theorem kextlist_oob_aborts_C1 :
    ∀ (pd : List Nat → Option (List CFBundle)) (m : MachoFile)
      (kextStartAddrs : List Nat) (infoSec : MachoSection) (data : List Nat)
      (bundles : List CFBundle) (b : CFBundle),
      getKextStartVMAddrs m = .ok kextStartAddrs →
      m.Section "__PRELINK_INFO" "__info" = some infoSec →
      infoSec.data = some data →
      pd (trimNul data) = some bundles →
      b ∈ bundles → b.OSKernelResource = false →
      kextStartAddrs.length ≤ b.ModuleIndex →
      (KextList pd m).2 = some KCError.IndexOutOfRange := by
  intro pd m kextStartAddrs infoSec data bundles b h1 h2 h3 h4 hb hk hlen
  simp only [KextList, h1, h2, h3, h4]
  exact buildCatalog_oob kextStartAddrs bundles b hb hk hlen

/-- Little-endian 8-byte encoding of a 64-bit value, for concrete images. -/
def le64 (n : Nat) : List Nat :=
  [n % 256, n / 256 % 256, n / 256 ^ 2 % 256, n / 256 ^ 3 % 256,
   n / 256 ^ 4 % 256, n / 256 ^ 5 % 256, n / 256 ^ 6 % 256, n / 256 ^ 7 % 256]

/-- Concrete image for the C1 witness: one start address, an `__info`
section whose (abstracted) plist decode yields one out-of-bounds bundle. -/
def imageC1 : MachoFile where
  Section := fun seg name =>
    if seg = "__PRELINK_INFO" ∧ name = "__kmod_start" then
      some ⟨8, some (le64 0x1000)⟩
    else if seg = "__PRELINK_INFO" ∧ name = "__info" then some ⟨0, some []⟩
    else none
  GetCString := fun _ => none
  GetOffset := fun _ => none
  ReadAt := fun _ _ => none
  GetBaseAddress := 0

/-- The abstracted plist decoder for the C1 witness. -/
def pdC1 : List Nat → Option (List CFBundle) := fun _ =>
  some [{ ID := "com.apple.bad", Version := "1.0",
          OSKernelResource := false, ModuleIndex := 5 }]

/-- Witness for C1: one start address, one bundle with `ModuleIndex = 5`. -/
theorem kextlist_oob_aborts_C1_witness :
    (KextList pdC1 imageC1).2 = some KCError.IndexOutOfRange :=
  kextlist_oob_aborts_C1 pdC1 imageC1 [0x1000] ⟨0, some []⟩ []
    [{ ID := "com.apple.bad", Version := "1.0",
       OSKernelResource := false, ModuleIndex := 5 }]
    { ID := "com.apple.bad", Version := "1.0",
      OSKernelResource := false, ModuleIndex := 5 }
    (by rfl) (by rfl) (by rfl) (by rfl) (by simp) (by rfl) (by decide)

/-- Concrete image for the C2 counterexample: `__kmod_start` present and
readable, `__PRELINK_INFO.__info` absent. -/
def imageC2 : MachoFile where
  Section := fun seg name =>
    if seg = "__PRELINK_INFO" ∧ name = "__kmod_start" then
      some ⟨8, some (le64 0x1000)⟩
    else none
  GetCString := fun _ => none
  GetOffset := fun _ => none
  ReadAt := fun _ _ => none
  GetBaseAddress := 0

/-- Counterexample to CLAIM C2: on an image whose `__PRELINK_INFO.__info`
section is absent, `KextList` completes successfully (`nil` error) while
producing no catalog — the `if infoSec != nil` block is silently skipped —
contradicting "it never completes successfully while producing no catalog
… including when the (PRELINK_INFO, info) section is absent". -/
theorem kextlist_info_absent_counterexample_C2 :
    imageC2.Section "__PRELINK_INFO" "__info" = none ∧
    getKextStartVMAddrs imageC2 = .ok [0x1000] ∧
    KextList (fun _ => none) imageC2 = ([], none) :=
  ⟨rfl, rfl, rfl⟩

/-- CLAIM C2 as amended: the listing is all-or-nothing except for one case —
(1) when the start addresses decode but `__PRELINK_INFO.__info` is absent,
`KextList` completes successfully while producing no catalog (the decode
step is skipped silently); (2) whenever the loop finishes without an
error, the catalog is complete: one entry per decoded bundle, in order. -/
theorem kextlist_all_or_nothing_amended_C2 :
    (∀ (pd : List Nat → Option (List CFBundle)) (m : MachoFile)
        (kextStartAddrs : List Nat),
        getKextStartVMAddrs m = .ok kextStartAddrs →
        m.Section "__PRELINK_INFO" "__info" = none →
        KextList pd m = ([], none)) ∧
    (∀ (kextStartAddrs : List Nat) (bundles : List CFBundle),
        (buildCatalog kextStartAddrs bundles).2 = none →
        (buildCatalog kextStartAddrs bundles).1.length = bundles.length) := by
  constructor
  · intro pd m kextStartAddrs h1 h2
    simp [KextList, h1, h2]
  · intro kextStartAddrs bundles
    induction bundles with
    | nil => intro _; rfl
    | cons a rest ih =>
      intro h
      by_cases ha : a.OSKernelResource
      · simp only [buildCatalog, ha, Bool.not_true, Bool.false_eq_true,
          if_false] at h ⊢
        simp [ih h]
      · rw [Bool.not_eq_true] at ha
        cases haddr : kextStartAddrs[a.ModuleIndex]? with
        | some v =>
          simp only [buildCatalog, ha, Bool.not_false, if_true, haddr] at h ⊢
          simp [ih h]
        | none =>
          simp only [buildCatalog, ha, Bool.not_false, if_true, haddr] at h
          exact absurd h (by simp)

/-- Witness for the amended C2: the silently-skipped case at `imageC2`, and
completeness of a one-bundle catalog. -/
theorem kextlist_all_or_nothing_amended_C2_witness :
    KextList (fun _ => none) imageC2 = ([], none) ∧
    (buildCatalog [0x1000]
        [{ OSKernelResource := true, ModuleIndex := 5 }]).1.length =
      ([{ OSKernelResource := true, ModuleIndex := 5 }] :
        List CFBundle).length :=
  ⟨kextlist_all_or_nothing_amended_C2.1 (fun _ => none) imageC2 [0x1000]
      rfl rfl,
   kextlist_all_or_nothing_amended_C2.2 [0x1000]
      [{ OSKernelResource := true, ModuleIndex := 5 }] rfl⟩

/-! ## GetSandboxOpts: the sandbox-operation scanner -/

/-- The `for _, ptr := range ptrs` loop of `GetSandboxOpts`: skip zero
pointers; on a dereference failure, break when `found` else continue; on
success set `found` when the string is `"default"`; while `found`, collect
the string and break unless the entry's tag is `0x17`. -/
def sandboxLoop (m : MachoFile) (found : Bool) (bcOpts : List String) :
    List Nat → List String
  | [] => bcOpts
  | ptr :: rest =>
    if ptr = 0 then sandboxLoop m found bcOpts rest
    else
      match m.GetCString (ptr ||| tagPtrMask) with
      | none => if found then bcOpts else sandboxLoop m found bcOpts rest
      | some str =>
        let found2 := if str = "default" then true else found
        if found2 then
          if getTag ptr ≠ 0x17 then bcOpts ++ [str]
          else sandboxLoop m found2 (bcOpts ++ [str]) rest
        else sandboxLoop m found2 bcOpts rest

/-- `GetSandboxOpts` from `kext.go`: walk the packed pointer array of
`__DATA_CONST.__const`; a missing section falls through to
`return bcOpts, nil`. -/
def GetSandboxOpts (m : MachoFile) : Except KCError (List String) :=
  match m.Section "__DATA_CONST" "__const" with
  | some dconst =>
    match dconst.data with
    | none => .error .DataReadFailed
    | some data =>
      match parseWords dconst.size data with
      | none => .error .BinaryDecodeFailed
      | some ptrs => .ok (sandboxLoop m false [] ptrs)
  | none => .ok []

/-- Spec-side description of the scan after `"default"` was found (§4.6):
collect each successfully dereferenced string, continuing past a
collected entry exactly when its tag is `0x17`; zero pointers are
skipped; any other tag or a dereference failure ends the run. -/
def collectRun (m : MachoFile) : List Nat → List String
  | [] => []
  | ptr :: rest =>
    if ptr = 0 then collectRun m rest
    else
      match m.GetCString (ptr ||| tagPtrMask) with
      | none => []
      | some str =>
        if getTag ptr = 0x17 then str :: collectRun m rest else [str]

/-- Spec-side description of the scan before `"default"` was found (§4.6):
skip zero pointers and dereference failures; once the string `"default"`
is dereferenced, collect it and continue as `collectRun` exactly when its
tag is `0x17`; empty if `"default"` never appears. -/
def seekDefault (m : MachoFile) : List Nat → List String
  | [] => []
  | ptr :: rest =>
    if ptr = 0 then seekDefault m rest
    else
      match m.GetCString (ptr ||| tagPtrMask) with
      | none => seekDefault m rest
      | some str =>
        if str = "default" then
          if getTag ptr = 0x17 then str :: collectRun m rest else [str]
        else seekDefault m rest

theorem sandboxLoop_found (m : MachoFile) :
    ∀ (ptrs : List Nat) (acc : List String),
      sandboxLoop m true acc ptrs = acc ++ collectRun m ptrs := by
  intro ptrs
  induction ptrs with
  | nil => intro acc; simp [sandboxLoop, collectRun]
  | cons ptr rest ih =>
    intro acc
    by_cases h0 : ptr = 0
    · simp [sandboxLoop, collectRun, h0, ih]
    · cases hs : m.GetCString (ptr ||| tagPtrMask) with
      | none => simp [sandboxLoop, collectRun, h0, hs]
      | some str =>
        by_cases ht : getTag ptr = 0x17
        · simp [sandboxLoop, collectRun, h0, hs, ht, ih]
        · simp [sandboxLoop, collectRun, h0, hs, ht]

theorem sandboxLoop_seek (m : MachoFile) :
    ∀ (ptrs : List Nat) (acc : List String),
      sandboxLoop m false acc ptrs = acc ++ seekDefault m ptrs := by
  intro ptrs
  induction ptrs with
  | nil => intro acc; simp [sandboxLoop, seekDefault]
  | cons ptr rest ih =>
    intro acc
    by_cases h0 : ptr = 0
    · simp [sandboxLoop, seekDefault, h0, ih]
    · cases hs : m.GetCString (ptr ||| tagPtrMask) with
      | none => simp [sandboxLoop, seekDefault, h0, hs, ih]
      | some str =>
        by_cases hd : str = "default"
        · subst hd
          by_cases ht : getTag ptr = 0x17
          · simp [sandboxLoop, seekDefault, h0, hs, ht, sandboxLoop_found]
          · simp [sandboxLoop, seekDefault, h0, hs, ht]
        · simp [sandboxLoop, seekDefault, h0, hs, hd, ih]

/-- Tagged pointers of Scenario D: `"foo"`, `"bar"`, `"default"`, `"read"`
with tag `0x17`; `"write"` with tag `0x03`. -/
def ptrFoo : Nat := 0x0017000000000100
def ptrBar : Nat := 0x0017000000000200
def ptrDefault : Nat := 0x0017000000000300
def ptrRead : Nat := 0x0017000000000400
def ptrWrite : Nat := 0x0003000000000500

/-- Concrete image for Scenario D: a 40-byte `__DATA_CONST.__const` section
holding the five tagged string pointers. -/
def imageD : MachoFile where
  Section := fun seg name =>
    if seg = "__DATA_CONST" ∧ name = "__const" then
      some ⟨40, some (le64 ptrFoo ++ le64 ptrBar ++ le64 ptrDefault ++
        le64 ptrRead ++ le64 ptrWrite)⟩
    else none
  GetCString := fun addr =>
    if addr = 0xffff000000000100 then some "foo"
    else if addr = 0xffff000000000200 then some "bar"
    else if addr = 0xffff000000000300 then some "default"
    else if addr = 0xffff000000000400 then some "read"
    else if addr = 0xffff000000000500 then some "write"
    else none
  GetOffset := fun _ => none
  ReadAt := fun _ _ => none
  GetBaseAddress := 0

/-- CLAIM C5: the scanner's walk is exactly the two-phase run described in
the claim — `sandboxLoop` starting with `found = false` and nothing
collected equals `seekDefault` (skip zero pointers and pre-`"default"`
dereference failures; from `"default"` onward collect every successfully
dereferenced string, continuing exactly on tag `0x17`; empty when
`"default"` never appears) — and on Scenario D's image the scan of the
decoded array `["foo", "bar", "default", "read", "write"]` returns
`["default", "read", "write"]`. -/
theorem sandbox_scan_C5 :
    (∀ (m : MachoFile) (ptrs : List Nat),
        sandboxLoop m false [] ptrs = seekDefault m ptrs) ∧
    GetSandboxOpts imageD = .ok ["default", "read", "write"] :=
  ⟨fun m ptrs => sandboxLoop_seek m ptrs [], by rfl⟩

/-- CLAIM C9: when section `__DATA_CONST.__const` is absent,
`GetSandboxOpts` returns the empty sequence and no error (absence is not a
failure there, unlike the kext readers' `SectionMissing`). -/
theorem sandbox_no_const_section_C9 :
    ∀ m : MachoFile, m.Section "__DATA_CONST" "__const" = none →
      GetSandboxOpts m = .ok [] := by
  intro m h
  simp [GetSandboxOpts, h]

/-- Witness for C9 on an image with no sections. -/
theorem sandbox_no_const_section_C9_witness :
    GetSandboxOpts emptyImage = .ok [] :=
  sandbox_no_const_section_C9 emptyImage rfl

/-! ## getKextInfos: the kmod-info metadata reader -/

/-- The `KmodInfoT` record of `kext.go` (little-endian, packed; `Name` and
`Version` are raw 64-byte fields, `InfoVersion` and `ReferenceCount` are
signed 32-bit). -/
structure KmodInfoT where
  NextAddr : Nat
  InfoVersion : Int
  ID : Nat
  Name : List Nat
  Version : List Nat
  ReferenceCount : Int
  ReferenceListAddr : Nat
  Address : Nat
  Size : Nat
  HeaderSize : Nat
  StartAddr : Nat
  StopAddr : Nat
deriving DecidableEq

/-- Little-endian unsigned field of `n` bytes at offset `off`. -/
def readLE (data : List Nat) (off n : Nat) : Nat :=
  leValue ((data.drop off).take n)

/-- Two's-complement reading of a 32-bit little-endian value (`int32`). -/
def toInt32 (v : Nat) : Int :=
  if v < 2 ^ 31 then (v : Int) else (v : Int) - 2 ^ 32

/-- `binary.Size(info)` for `KmodInfoT`: the packed encoding, 196 bytes
(8 + 4 + 4 + 64 + 64 + 4 + 8 + 8 + 8 + 8 + 8 + 8). -/
def kmodInfoSize : Nat := 196

/-- `binary.Read(bytes.NewReader(infoBytes), binary.LittleEndian, &info)`:
decode the packed layout NextAddr(8) InfoVersion(4) ID(4) Name(64)
Version(64) ReferenceCount(4) ReferenceListAddr(8) Address(8) Size(8)
HeaderSize(8) StartAddr(8) StopAddr(8). -/
def decodeKmodInfo (data : List Nat) : KmodInfoT where
  NextAddr := readLE data 0 8
  InfoVersion := toInt32 (readLE data 8 4)
  ID := readLE data 12 4
  Name := (data.drop 16).take 64
  Version := (data.drop 80).take 64
  ReferenceCount := toInt32 (readLE data 144 4)
  ReferenceListAddr := readLE data 148 8
  Address := readLE data 156 8
  Size := readLE data 164 8
  HeaderSize := readLE data 172 8
  StartAddr := readLE data 180 8
  StopAddr := readLE data 188 8

/-- The ChainedFixupAdapter:
`fixupchains.DyldChainedPtr64KernelCacheRebase{Pointer: x}.Target() +
m.GetBaseAddress()`, with the external `Target()` primitive abstracted as
`rebase`; the uint64 addition wraps. -/
def fixup (rebase : Nat → Nat) (m : MachoFile) (x : Nat) : Nat :=
  (rebase x + m.GetBaseAddress) % 2 ^ 64

/-- One iteration of `getKextInfos`'s pointer loop. -/
def processKmodPtr (rebase : Nat → Nat) (m : MachoFile) (ptr : Nat) :
    Except KCError KmodInfoT :=
  match m.GetOffset (ptr ||| tagPtrMask) with
  | none => .error .AddressNotMapped
  | some off =>
    match m.ReadAt kmodInfoSize off with
    | none => .error .RecordTruncated
    | some infoBytes =>
      let info := decodeKmodInfo infoBytes
      .ok { info with
        StartAddr := fixup rebase m info.StartAddr
        StopAddr := fixup rebase m info.StopAddr }

/-- `getKextInfos`'s pointer loop: first failure aborts, order preserved. -/
def readKmodInfos (rebase : Nat → Nat) (m : MachoFile) :
    List Nat → Except KCError (List KmodInfoT)
  | [] => .ok []
  | ptr :: rest =>
    match processKmodPtr rebase m ptr with
    | .error e => .error e
    | .ok info =>
      match readKmodInfos rebase m rest with
      | .error e => .error e
      | .ok infos => .ok (info :: infos)

/-- `getKextInfos` from `kext.go`: locate `__PRELINK_INFO.__kmod_info`,
decode the packed tagged-pointer array, dereference each record. -/
def getKextInfos (rebase : Nat → Nat) (m : MachoFile) :
    Except KCError (List KmodInfoT) :=
  match m.Section "__PRELINK_INFO" "__kmod_info" with
  | some kmodStart =>
    match kmodStart.data with
    | none => .error .DataReadFailed
    | some data =>
      match parseWords kmodStart.size data with
      | none => .error .BinaryDecodeFailed
      | some ptrs => readKmodInfos rebase m ptrs
  | none => .error .SectionMissing

theorem processKmodPtr_ok (rebase : Nat → Nat) (m : MachoFile) (ptr : Nat)
    (info : KmodInfoT) (h : processKmodPtr rebase m ptr = .ok info) :
    ∃ off infoBytes, m.GetOffset (ptr ||| tagPtrMask) = some off ∧
      m.ReadAt kmodInfoSize off = some infoBytes ∧
      info = { decodeKmodInfo infoBytes with
        StartAddr := fixup rebase m (decodeKmodInfo infoBytes).StartAddr
        StopAddr := fixup rebase m (decodeKmodInfo infoBytes).StopAddr } := by
  cases ho : m.GetOffset (ptr ||| tagPtrMask) with
  | none => simp [processKmodPtr, ho] at h
  | some off =>
    cases hr : m.ReadAt kmodInfoSize off with
    | none => simp [processKmodPtr, ho, hr] at h
    | some infoBytes =>
      simp only [processKmodPtr, ho, hr, Except.ok.injEq] at h
      exact ⟨off, infoBytes, rfl, hr, h.symm⟩

theorem readKmodInfos_mem (rebase : Nat → Nat) (m : MachoFile) :
    ∀ (ptrs : List Nat) (infos : List KmodInfoT),
      readKmodInfos rebase m ptrs = .ok infos →
      ∀ info ∈ infos, ∃ ptr, processKmodPtr rebase m ptr = .ok info := by
  intro ptrs
  induction ptrs with
  | nil =>
    intro infos h info hi
    simp only [readKmodInfos, Except.ok.injEq] at h
    subst h
    cases hi
  | cons ptr rest ih =>
    intro infos h info hi
    cases hp : processKmodPtr rebase m ptr with
    | error e => simp [readKmodInfos, hp] at h
    | ok info0 =>
      cases hr : readKmodInfos rebase m rest with
      | error e => simp [readKmodInfos, hp, hr] at h
      | ok infos0 =>
        simp only [readKmodInfos, hp, hr, Except.ok.injEq] at h
        subst h
        rcases List.mem_cons.mp hi with rfl | hmem
        · exact ⟨ptr, hp⟩
        · exact ih infos0 hr info hmem

theorem getKextInfos_ok (rebase : Nat → Nat) (m : MachoFile)
    (infos : List KmodInfoT) (h : getKextInfos rebase m = .ok infos) :
    ∃ ptrs, readKmodInfos rebase m ptrs = .ok infos := by
  cases hsec : m.Section "__PRELINK_INFO" "__kmod_info" with
  | none => simp [getKextInfos, hsec] at h
  | some kmodStart =>
    cases hdata : kmodStart.data with
    | none => simp [getKextInfos, hsec, hdata] at h
    | some data =>
      cases hws : parseWords kmodStart.size data with
      | none => simp [getKextInfos, hsec, hdata, hws] at h
      | some ptrs =>
        simp only [getKextInfos, hsec, hdata, hws] at h
        exact ⟨ptrs, h⟩

/-- CLAIM C6: every record returned by `getKextInfos` is the plain
little-endian decode of its 196 record bytes with the chained-fixup
adapter applied to `StartAddr` and `StopAddr` only — the other ten fields
are exactly the plain decoded values. -/
theorem kmod_fixup_frame_C6 :
    ∀ (rebase : Nat → Nat) (m : MachoFile) (infos : List KmodInfoT),
      getKextInfos rebase m = .ok infos →
      ∀ info ∈ infos, ∃ ptr off infoBytes,
        m.GetOffset (ptr ||| tagPtrMask) = some off ∧
        m.ReadAt kmodInfoSize off = some infoBytes ∧
        (info.NextAddr = (decodeKmodInfo infoBytes).NextAddr ∧
         info.InfoVersion = (decodeKmodInfo infoBytes).InfoVersion ∧
         info.ID = (decodeKmodInfo infoBytes).ID ∧
         info.Name = (decodeKmodInfo infoBytes).Name ∧
         info.Version = (decodeKmodInfo infoBytes).Version ∧
         info.ReferenceCount = (decodeKmodInfo infoBytes).ReferenceCount ∧
         info.ReferenceListAddr =
           (decodeKmodInfo infoBytes).ReferenceListAddr ∧
         info.Address = (decodeKmodInfo infoBytes).Address ∧
         info.Size = (decodeKmodInfo infoBytes).Size ∧
         info.HeaderSize = (decodeKmodInfo infoBytes).HeaderSize) ∧
        info.StartAddr = fixup rebase m (decodeKmodInfo infoBytes).StartAddr ∧
        info.StopAddr = fixup rebase m (decodeKmodInfo infoBytes).StopAddr := by
  intro rebase m infos h info hi
  obtain ⟨ptrs, hps⟩ := getKextInfos_ok rebase m infos h
  obtain ⟨ptr, hp⟩ := readKmodInfos_mem rebase m ptrs infos hps info hi
  obtain ⟨off, infoBytes, ho, hr, hinfo⟩ :=
    processKmodPtr_ok rebase m ptr info hp
  subst hinfo
  exact ⟨ptr, off, infoBytes, ho, hr,
    ⟨rfl, rfl, rfl, rfl, rfl, rfl, rfl, rfl, rfl, rfl⟩, rfl, rfl⟩

/-- 196 zero record bytes, for the C6 witness. -/
def bytes196 : List Nat := List.replicate 196 0

/-- Concrete image for the C6 witness: one `__kmod_info` pointer whose
record bytes are all zero; base address `0x100`. -/
def imageC6 : MachoFile where
  Section := fun seg name =>
    if seg = "__PRELINK_INFO" ∧ name = "__kmod_info" then
      some ⟨8, some (le64 0x2000)⟩
    else none
  GetCString := fun _ => none
  GetOffset := fun _ => some 0
  ReadAt := fun n off => if n = 196 ∧ off = 0 then some bytes196 else none
  GetBaseAddress := 0x100

/-- The single record `getKextInfos id imageC6` returns. -/
def infoC6 : KmodInfoT :=
  { decodeKmodInfo bytes196 with
    StartAddr := fixup id imageC6 (decodeKmodInfo bytes196).StartAddr
    StopAddr := fixup id imageC6 (decodeKmodInfo bytes196).StopAddr }

/-- Witness for C6 on `imageC6` with the identity rebase primitive. -/
theorem kmod_fixup_frame_C6_witness :
    ∃ ptr off infoBytes,
      imageC6.GetOffset (ptr ||| tagPtrMask) = some off ∧
      imageC6.ReadAt kmodInfoSize off = some infoBytes ∧
      (infoC6.NextAddr = (decodeKmodInfo infoBytes).NextAddr ∧
       infoC6.InfoVersion = (decodeKmodInfo infoBytes).InfoVersion ∧
       infoC6.ID = (decodeKmodInfo infoBytes).ID ∧
       infoC6.Name = (decodeKmodInfo infoBytes).Name ∧
       infoC6.Version = (decodeKmodInfo infoBytes).Version ∧
       infoC6.ReferenceCount = (decodeKmodInfo infoBytes).ReferenceCount ∧
       infoC6.ReferenceListAddr =
         (decodeKmodInfo infoBytes).ReferenceListAddr ∧
       infoC6.Address = (decodeKmodInfo infoBytes).Address ∧
       infoC6.Size = (decodeKmodInfo infoBytes).Size ∧
       infoC6.HeaderSize = (decodeKmodInfo infoBytes).HeaderSize) ∧
      infoC6.StartAddr = fixup id imageC6 (decodeKmodInfo infoBytes).StartAddr ∧
      infoC6.StopAddr = fixup id imageC6 (decodeKmodInfo infoBytes).StopAddr :=
  kmod_fixup_frame_C6 id imageC6 [infoC6] (by rfl) infoC6 (by simp)

end Kext
